import Mathlib

/-!
Shallow embedding of `src/index.js` — a lazy-image-loading coordinator.

The document state is a list of managed `img.lazy` elements (with their
surrounding card: optional `.load-now` button, optional `.skeleton`
wrapper, optional `<picture>` sources), plus the process-wide
`IntersectionObserver` slot (`obs`), the current mode string and mode
label.  DOM attribute reads/writes become record-field reads/writes;
`addEventListener`/`removeEventListener` on an image become bookkeeping
of the registered listener pairs (each `loadImage` call registers one
`load` and one `error` listener, identified by the id of the promise
that call created); the asynchronous browser load/error signal becomes
an explicit `fireLoad`/`fireError` transition that runs the registered
handlers in registration order, honouring the `once: true` option and
removal-during-dispatch.  Every externally observable act (listener
add/remove, descriptor commit, promise resolution/rejection, console
output) is also recorded in an action trace so that ordering and
exactly-once properties can be stated about it.
-/

/-- A `<source>` child of a `<picture>` grouping node
    (`applyDataAttributes`, src/index.js lines 15-23). -/
structure SourceEl where
  dataSrcset : Option String
  srcset : Option String
  deriving DecidableEq, Inhabited

/-- The `.load-now` button (affordance) in an element's card.
    `handlerBound` records whether `setupImages` attached its click
    handler (src/index.js line 120); `setupImages` runs once, so a
    Bool suffices. -/
structure Btn where
  hidden : Bool
  disabled : Bool
  text : String
  handlerBound : Bool
  deriving DecidableEq, Inhabited

/-- A managed `img.lazy` element together with its card state.
    `loadedClass` is membership of the `loaded` class; `skeleton` is
    `none` when there is no `.skeleton` wrapper and `some b` when the
    wrapper exists and `b` is its `loaded` class; `loadLs`/`errLs` are
    the promise ids whose `load`/`error` listeners are currently
    registered on this element, in registration order. -/
structure Img where
  dataSrc : Option String
  dataSrcset : Option String
  dataSizes : Option String
  src : Option String
  srcset : Option String
  sizes : Option String
  sources : List SourceEl
  loadedClass : Bool
  skeleton : Option Bool
  dataLoad : Option String
  btn : Option Btn
  loadLs : List Nat
  errLs : List Nat
  deriving DecidableEq, Inhabited

/-- The shared `IntersectionObserver` instance: its watch set, and a
    creation generation number distinguishing instances. -/
structure Obs where
  watched : List Nat
  gen : Nat
  deriving DecidableEq, Inhabited

/-- Whole-program state: the managed elements (index = document order),
    the `io` observer slot, the mode globals, and the allocator for
    fresh promise ids / observer generations. -/
structure GState where
  imgs : List Img
  obs : Option Obs
  nextGen : Nat
  currentMode : String
  modeLabel : String
  nextPid : Nat
  deriving DecidableEq, Inhabited

/-- Observable actions, recorded in program order. -/
inductive Evt where
  | addLoadListener (i pid : Nat)
  | addErrorListener (i pid : Nat)
  | removeLoadListener (i pid : Nat)
  | removeErrorListener (i pid : Nat)
  | commit (i : Nat)
  | resolveP (pid : Nat)
  | rejectP (pid : Nat) (reason : String)
  | warn (msg : String)
  | log (msg : String)
  deriving DecidableEq

/-- JS truthiness of an optional string attribute (`if (img.dataset.src)`). -/
def truthy : Option String → Bool
  | none => false
  | some s => !s.isEmpty

/-- `img.dataset.load || 'scroll'` (src/index.js lines 89, 112). -/
def loadModeOf (img : Img) : String :=
  match img.dataLoad with
  | none => "scroll"
  | some s => if s.isEmpty then "scroll" else s

/-- `source.srcset = source.dataset.srcset` for a `source[data-srcset]`
    (the selector only matches sources that carry the attribute). -/
def commitSource (s : SourceEl) : SourceEl :=
  match s.dataSrcset with
  | none => s
  | some v => { s with srcset := some v }

/-- `applyDataAttributes(img)` (src/index.js lines 13-35): commit the
    pending descriptors of the picture sources and of the img itself. -/
def applyDataAttributes (img : Img) : Img :=
  let img := { img with sources := img.sources.map commitSource }
  let img := if truthy img.dataSrc then { img with src := img.dataSrc } else img
  let img := if truthy img.dataSrcset then { img with srcset := img.dataSrcset } else img
  if truthy img.dataSizes then { img with sizes := img.dataSizes } else img

/-- Read the i-th managed element. -/
def getImg (st : GState) (i : Nat) : Img := st.imgs.getD i default

/-- Replace the i-th managed element. -/
def setImg (st : GState) (i : Nat) (img : Img) : GState :=
  { st with imgs := st.imgs.set i img }

/-- Update an element's button, if it has one (`btn?.…` optional chaining). -/
def setBtn (img : Img) (f : Btn → Btn) : Img :=
  { img with btn := img.btn.map f }

/-- The watch set of the current observer instance (empty when `io` is null). -/
def watchedOf (st : GState) : List Nat :=
  match st.obs with
  | none => []
  | some o => o.watched

/-- `ensureObserver()` (src/index.js lines 79-103): reuse the existing
    instance, or lazily create a fresh one with an empty watch set. -/
def ensureObserver (st : GState) : GState :=
  match st.obs with
  | some _ => st
  | none =>
    { st with obs := some { watched := [], gen := st.nextGen }, nextGen := st.nextGen + 1 }

/-- `io.observe(img)`: observing an already-observed target is a no-op
    (IntersectionObserver semantics); without an instance nothing happens. -/
def obsWatch (st : GState) (i : Nat) : GState :=
  { st with obs := st.obs.map fun o =>
      if i ∈ o.watched then o else { o with watched := o.watched ++ [i] } }

/-- `io.unobserve(img)` guarded by `if (io)`: drop the target from the
    watch set of the current instance, if any. -/
def obsUnwatch (st : GState) (i : Nat) : GState :=
  { st with obs := st.obs.map fun o => { o with watched := o.watched.erase i } }

/-- `loadImage(img)` (src/index.js lines 41-74), synchronous part: the
    Promise executor runs at once.  A fresh promise id is allocated; if
    the element already has the `loaded` class the promise resolves
    immediately; otherwise one `load`/`error` listener pair is
    registered and then the data attributes are committed (which starts
    the browser fetch).  Returns (state, promise id, action trace). -/
def loadImage (st : GState) (i : Nat) : GState × Nat × List Evt :=
  let pid := st.nextPid
  let img := getImg st i
  let st := { st with nextPid := pid + 1 }
  if img.loadedClass then
    (st, pid, [Evt.resolveP pid])
  else
    let img := { img with loadLs := img.loadLs ++ [pid], errLs := img.errLs ++ [pid] }
    let img := applyDataAttributes img
    (setImg st i img, pid,
      [Evt.addLoadListener i pid, Evt.addErrorListener i pid, Evt.commit i])

/-- One registered `onLoad` handler firing (src/index.js lines 50-56):
    `once: true` removes the `load` listener, then the handler adds the
    `loaded` classes, runs `cleanup()` (which removes the still-present
    `error` listener; removing the already-removed `load` listener is a
    no-op) and resolves its promise. -/
def fireLoadHandler (st : GState) (i pid : Nat) : GState × List Evt :=
  let img := getImg st i
  let img := { img with loadLs := img.loadLs.erase pid }
  let img := { img with loadedClass := true }
  let img := match img.skeleton with
    | none => { img with skeleton := none }
    | some _ => { img with skeleton := some true }
  let img := { img with errLs := img.errLs.erase pid }
  (setImg st i img,
    [Evt.removeLoadListener i pid, Evt.removeErrorListener i pid, Evt.resolveP pid])

/-- Dispatch of the browser `load` event over a snapshot of the listener
    list: a listener is invoked only if it is still registered when its
    turn comes (removal-during-dispatch semantics). -/
def fireLoadAux (i : Nat) : List Nat → GState → GState × List Evt
  | [], st => (st, [])
  | pid :: rest, st =>
    if pid ∈ (getImg st i).loadLs then
      let p := fireLoadHandler st i pid
      let q := fireLoadAux i rest p.1
      (q.1, p.2 ++ q.2)
    else
      fireLoadAux i rest st

/-- The browser fires the `load` signal for element `i`. -/
def fireLoad (st : GState) (i : Nat) : GState × List Evt :=
  fireLoadAux i (getImg st i).loadLs st

/-- One registered `onError` handler firing (src/index.js lines 57-62):
    `once: true` removes the `error` listener, the handler logs a
    warning, runs `cleanup()` (removing the still-present `load`
    listener) and rejects its promise with the underlying event. -/
def fireErrorHandler (st : GState) (i pid : Nat) (reason : String) : GState × List Evt :=
  let img := getImg st i
  let img := { img with errLs := img.errLs.erase pid }
  let img := { img with loadLs := img.loadLs.erase pid }
  (setImg st i img,
    [Evt.removeErrorListener i pid, Evt.warn reason,
     Evt.removeLoadListener i pid, Evt.rejectP pid reason])

/-- Dispatch of the browser `error` event over a snapshot of the
    listener list. -/
def fireErrorAux (i : Nat) (reason : String) : List Nat → GState → GState × List Evt
  | [], st => (st, [])
  | pid :: rest, st =>
    if pid ∈ (getImg st i).errLs then
      let p := fireErrorHandler st i pid reason
      let q := fireErrorAux i reason rest p.1
      (q.1, p.2 ++ q.2)
    else
      fireErrorAux i reason rest st

/-- The browser fires the `error` signal for element `i`. -/
def fireError (st : GState) (i : Nat) (reason : String) : GState × List Evt :=
  fireErrorAux i reason (getImg st i).errLs st

/-- One entry of the IntersectionObserver callback (src/index.js lines
    84-95): ignore non-intersecting entries; re-check the element's
    current mode and ignore elements no longer in `scroll` mode (no
    unobserve there); otherwise load it — `.catch(() => {})` swallows
    a failure, so the promise id is discarded — and unobserve it. -/
def onIntersect (st : GState) (i : Nat) (isIntersecting : Bool) : GState × List Evt :=
  if !isIntersecting then (st, [])
  else if loadModeOf (getImg st i) != "scroll" then (st, [])
  else
    let r := loadImage st i
    (obsUnwatch r.1 i, r.2.2)

/-- `setupImages` body for one element (src/index.js lines 111-136):
    `click` mode reveals the button and binds its click handler;
    `scroll` mode hides the button and registers the element with the
    (lazily created) observer. -/
def setupOne (st : GState) (i : Nat) : GState :=
  let img := getImg st i
  if loadModeOf img = "click" then
    setImg st i (setBtn img fun b => { b with hidden := false, handlerBound := true })
  else
    let st := setImg st i (setBtn img fun b => { b with hidden := true })
    obsWatch (ensureObserver st) i

/-- `setupImages()` (src/index.js lines 108-137): run once at init over
    every managed element in document order. -/
def setupImages (st : GState) : GState :=
  (List.range st.imgs.length).foldl setupOne st

/-- The mode string written by `toggleMode` (src/index.js line 145). -/
def modeStr (isScroll : Bool) : String :=
  if isScroll then "scroll" else "click"

/-- The mode label written by `toggleMode` (src/index.js line 146). -/
def labelStr (isScroll : Bool) : String :=
  if isScroll then "авто (on-scroll)" else "по кліку (on-click)"

/-- `toggleMode` body for one element (src/index.js lines 149-167): the
    `data-load` attribute is set first; elements with the `loaded` class
    are then skipped; otherwise the button visibility and the watch set
    are reconciled with the new mode. -/
def toggleOne (mode : String) (st : GState) (i : Nat) : GState :=
  let img := { getImg st i with dataLoad := some mode }
  let st := setImg st i img
  if img.loadedClass then st
  else if mode = "scroll" then
    let st := setImg st i (setBtn img fun b => { b with hidden := true })
    obsWatch (ensureObserver st) i
  else
    let st := setImg st i (setBtn img fun b => { b with hidden := false })
    obsUnwatch st i

/-- `toggleMode(isScroll)` (src/index.js lines 144-168). -/
def toggleMode (st : GState) (isScroll : Bool) : GState :=
  let st := { st with currentMode := modeStr isScroll, modeLabel := labelStr isScroll }
  (List.range st.imgs.length).foldl (toggleOne (modeStr isScroll)) st

/-- `gallery.querySelectorAll('img.lazy:not(.loaded)')` (src/index.js
    line 174): the indices of the managed elements without the `loaded`
    class, in document order. -/
def loadAllSelect (st : GState) : List Nat :=
  (List.range st.imgs.length).filter fun i => !(getImg st i).loadedClass

/-- `images.map(loadImage)`: the Promise executors run synchronously in
    order; collect the states, promise ids and traces. -/
def loadAllAux : List Nat → GState → GState × List Nat × List Evt
  | [], st => (st, [], [])
  | i :: rest, st =>
    let p := loadImage st i
    let q := loadAllAux rest p.1
    (q.1, p.2.1 :: q.2.1, p.2.2 ++ q.2.2)

/-- `loadAll()` (src/index.js lines 173-176): load every not-yet-loaded
    element; the result is awaited with `Promise.allSettled`, which
    settles exactly when every returned promise has settled. -/
def loadAll (st : GState) : GState × List Nat × List Evt :=
  loadAllAux (loadAllSelect st) st

/-- The `disconnectObserverBtn` click handler (src/index.js lines
    196-202): if an observer instance exists, disconnect it and null
    the slot; otherwise do nothing. -/
def disconnectObserver (st : GState) : GState × List Evt :=
  match st.obs with
  | none => (st, [])
  | some _ => ({ st with obs := none }, [Evt.log "IntersectionObserver відключено"])

/-- Dispatching a click on an element's `.load-now` button: the click
    handler runs only if `setupImages` bound one; its synchronous
    prefix (src/index.js lines 121-124) disables the button, shows the
    loading label and calls `loadImage`.  Returns the promise id the
    handler is awaiting, if a handler ran and the element was pending. -/
def clickBtn (st : GState) (i : Nat) : GState × Option Nat × List Evt :=
  match (getImg st i).btn with
  | none => (st, none, [])
  | some b =>
    if b.handlerBound then
      let st := setImg st i
        (setBtn (getImg st i) fun x => { x with disabled := true, text := "Завантаження…" })
      let r := loadImage st i
      (r.1, some r.2.1, r.2.2)
    else (st, none, [])

/-- The rest of the click handler once `await loadImage(img)` settles
    (src/index.js lines 125-129): success shows the done label; failure
    shows the retry label and re-enables the button. -/
def btnOnSettled (st : GState) (i : Nat) (ok : Bool) : GState :=
  if ok then
    setImg st i (setBtn (getImg st i) fun b => { b with text := "Готово" })
  else
    setImg st i
      (setBtn (getImg st i) fun b => { b with text := "Помилка, спробуйте ще", disabled := false })

/-- Does this action settle promise `pid`? -/
def settlesP (pid : Nat) : Evt → Bool
  | Evt.resolveP p => p == pid
  | Evt.rejectP p _ => p == pid
  | _ => false

/-- Promise `pid` has settled somewhere in the trace. -/
def settledIn (tr : List Evt) (pid : Nat) : Bool :=
  tr.any (settlesP pid)

/-- Environment model for the scenario `BulkLoader` is specified by: the
    browser eventually fires, for each listed element in turn, its load
    signal (when `f i` is true) or its error signal (otherwise). -/
def fireAllAux (f : Nat → Bool) (reason : String) : List Nat → GState → GState × List Evt
  | [], st => (st, [])
  | i :: rest, st =>
    let p := if f i then fireLoad st i else fireError st i reason
    let q := fireAllAux f reason rest p.1
    (q.1, p.2 ++ q.2)

/-! ### Concrete fixture states -/

def btn0 : Btn :=
  { hidden := true, disabled := false, text := "Завантажити", handlerBound := false }

def img0 : Img :=
  { dataSrc := some "a.jpg", dataSrcset := none, dataSizes := none,
    src := none, srcset := none, sizes := none, sources := [],
    loadedClass := false, skeleton := some false, dataLoad := some "scroll",
    btn := some btn0, loadLs := [], errLs := [] }

def st0 : GState :=
  { imgs := [img0], obs := none, nextGen := 0,
    currentMode := "scroll", modeLabel := "авто (on-scroll)", nextPid := 0 }

def stL : GState := { st0 with imgs := [{ img0 with loadedClass := true }] }

def stW : GState :=
  { st0 with obs := some { watched := [0], gen := 0 }, nextGen := 1 }

def imgF : Img := { img0 with loadLs := [5], errLs := [5] }

def stF : GState :=
  { imgs := [imgF], obs := some { watched := [], gen := 0 }, nextGen := 1,
    currentMode := "scroll", modeLabel := "авто (on-scroll)", nextPid := 6 }

def stB : GState :=
  { imgs := [{ img0 with loadedClass := true }, img0, { img0 with dataSrc := some "b.jpg" }],
    obs := none, nextGen := 0, currentMode := "scroll", modeLabel := "авто (on-scroll)",
    nextPid := 0 }

/-! ### Basic facts about the state primitives -/

theorem length_setImg (st : GState) (i : Nat) (img : Img) :
    (setImg st i img).imgs.length = st.imgs.length := by
  simp [setImg]

theorem getImg_setImg_self (st : GState) (i : Nat) (img : Img) (h : i < st.imgs.length) :
    getImg (setImg st i img) i = img := by
  simp [getImg, setImg, List.getD, List.getElem?_set_self, h]

theorem getImg_setImg_ne (st : GState) (i j : Nat) (img : Img) (h : i ≠ j) :
    getImg (setImg st j img) i = getImg st i := by
  simp [getImg, setImg, List.getD, List.getElem?_set_ne (by omega : j ≠ i)]

theorem setImg_obs (st : GState) (i : Nat) (img : Img) : (setImg st i img).obs = st.obs := rfl

theorem applyDataAttributes_preserves (img : Img) :
    (applyDataAttributes img).loadedClass = img.loadedClass ∧
    (applyDataAttributes img).loadLs = img.loadLs ∧
    (applyDataAttributes img).errLs = img.errLs ∧
    (applyDataAttributes img).dataLoad = img.dataLoad ∧
    (applyDataAttributes img).btn = img.btn ∧
    (applyDataAttributes img).skeleton = img.skeleton := by
  simp only [applyDataAttributes]
  split <;> split <;> split <;> simp

/-! ### Characterizations of `loadImage` -/

theorem loadImage_loaded (st : GState) (i : Nat) (hl : (getImg st i).loadedClass = true) :
    loadImage st i =
      ({ st with nextPid := st.nextPid + 1 }, st.nextPid, [Evt.resolveP st.nextPid]) := by
  simp [loadImage, hl]

theorem loadImage_not_loaded (st : GState) (i : Nat)
    (hl : (getImg st i).loadedClass = false) :
    loadImage st i =
      (setImg { st with nextPid := st.nextPid + 1 } i
        (applyDataAttributes { getImg st i with
          loadLs := (getImg st i).loadLs ++ [st.nextPid],
          errLs := (getImg st i).errLs ++ [st.nextPid] }),
       st.nextPid,
       [Evt.addLoadListener i st.nextPid, Evt.addErrorListener i st.nextPid,
        Evt.commit i]) := by
  simp [loadImage, hl]

theorem loadImage_len (st : GState) (i : Nat) :
    (loadImage st i).1.imgs.length = st.imgs.length := by
  simp only [loadImage]
  split <;> simp [setImg]

theorem loadImage_obs (st : GState) (i : Nat) : (loadImage st i).1.obs = st.obs := by
  simp only [loadImage]
  split <;> rfl

theorem loadImage_nextPid (st : GState) (i : Nat) :
    (loadImage st i).1.nextPid = st.nextPid + 1 := by
  simp only [loadImage]
  split <;> rfl

theorem loadImage_pid (st : GState) (i : Nat) : (loadImage st i).2.1 = st.nextPid := by
  simp only [loadImage]
  split <;> rfl

theorem loadImage_getImg_ne (st : GState) (i j : Nat) (hij : j ≠ i) :
    getImg (loadImage st i).1 j = getImg st j := by
  simp only [loadImage]
  split
  · rfl
  · exact getImg_setImg_ne _ j i _ hij

theorem loadImage_getImg_self (st : GState) (i : Nat) (h : i < st.imgs.length)
    (hl : (getImg st i).loadedClass = false) :
    getImg (loadImage st i).1 i =
      applyDataAttributes { getImg st i with
        loadLs := (getImg st i).loadLs ++ [st.nextPid],
        errLs := (getImg st i).errLs ++ [st.nextPid] } := by
  rw [loadImage_not_loaded st i hl]
  exact getImg_setImg_self _ i _ h

theorem loadImage_trace_not_loaded (st : GState) (i : Nat)
    (hl : (getImg st i).loadedClass = false) :
    (loadImage st i).2.2 =
      [Evt.addLoadListener i st.nextPid, Evt.addErrorListener i st.nextPid, Evt.commit i] := by
  rw [loadImage_not_loaded st i hl]

/-! ### Characterizations of the browser signals on a single pending pair -/

theorem fireLoad_single (st : GState) (i p : Nat)
    (hL : (getImg st i).loadLs = [p]) (hE : (getImg st i).errLs = [p]) :
    fireLoad st i =
      (setImg st i
        { getImg st i with
            loadLs := [], loadedClass := true,
            skeleton := Option.map (fun _ => true) (getImg st i).skeleton,
            errLs := [] },
       [Evt.removeLoadListener i p, Evt.removeErrorListener i p, Evt.resolveP p]) := by
  cases hsk : (getImg st i).skeleton <;>
    simp [fireLoad, fireLoadAux, fireLoadHandler, hL, hE, hsk, List.erase_cons_head]

theorem fireError_single (st : GState) (i p : Nat) (reason : String)
    (hL : (getImg st i).loadLs = [p]) (hE : (getImg st i).errLs = [p]) :
    fireError st i reason =
      (setImg st i { getImg st i with errLs := [], loadLs := [] },
       [Evt.removeErrorListener i p, Evt.warn reason, Evt.removeLoadListener i p,
        Evt.rejectP p reason]) := by
  simp [fireError, fireErrorAux, fireErrorHandler, hL, hE, List.erase_cons_head]


/-- Firing the load signal when two listener pairs are registered: both
    handlers run, both promises resolve. -/
theorem fireLoad_double (st : GState) (i p q : Nat) (hpq : p ≠ q) (h : i < st.imgs.length)
    (hL : (getImg st i).loadLs = [p, q]) (hE : (getImg st i).errLs = [p, q]) :
    (fireLoad st i).2.count (Evt.resolveP p) = 1 ∧
    (fireLoad st i).2.count (Evt.resolveP q) = 1 ∧
    (getImg (fireLoad st i).1 i).loadedClass = true := by
  cases hsk : (getImg st i).skeleton <;>
    simp [fireLoad, fireLoadAux, fireLoadHandler, hL, hE, hsk, List.erase_cons_head,
      getImg_setImg_self, length_setImg, h, List.count_cons, hpq, Ne.symm hpq]

/-- C5: in every execution of `load` on an element not yet Loaded, both
    listeners are registered strictly before `commitDescriptors` (the
    trace is add-load, add-error, then commit), and whichever signal
    fires, both listeners are removed exactly once (one removal action
    each, and the registered-listener sets end empty). -/
theorem load_listener_order_and_teardown (st : GState) (i : Nat) (reason : String)
    (h : i < st.imgs.length)
    (hl : (getImg st i).loadedClass = false)
    (hL : (getImg st i).loadLs = []) (hE : (getImg st i).errLs = []) :
    (loadImage st i).2.2 =
      [Evt.addLoadListener i st.nextPid, Evt.addErrorListener i st.nextPid, Evt.commit i] ∧
    ((fireLoad (loadImage st i).1 i).2.count (Evt.removeLoadListener i st.nextPid) = 1 ∧
     (fireLoad (loadImage st i).1 i).2.count (Evt.removeErrorListener i st.nextPid) = 1 ∧
     (getImg (fireLoad (loadImage st i).1 i).1 i).loadLs = [] ∧
     (getImg (fireLoad (loadImage st i).1 i).1 i).errLs = []) ∧
    ((fireError (loadImage st i).1 i reason).2.count (Evt.removeLoadListener i st.nextPid) = 1 ∧
     (fireError (loadImage st i).1 i reason).2.count (Evt.removeErrorListener i st.nextPid) = 1 ∧
     (getImg (fireError (loadImage st i).1 i reason).1 i).loadLs = [] ∧
     (getImg (fireError (loadImage st i).1 i reason).1 i).errLs = []) := by
  have hlen : (loadImage st i).1.imgs.length = st.imgs.length := by
    rw [loadImage_not_loaded st i hl]; simp [length_setImg]
  have hget : getImg (loadImage st i).1 i =
      applyDataAttributes { getImg st i with loadLs := [st.nextPid], errLs := [st.nextPid] } := by
    rw [loadImage_not_loaded st i hl, hL, hE]
    simp only [List.nil_append]
    exact getImg_setImg_self _ i _ h
  have hL1 : (getImg (loadImage st i).1 i).loadLs = [st.nextPid] := by
    rw [hget]; exact (applyDataAttributes_preserves _).2.1
  have hE1 : (getImg (loadImage st i).1 i).errLs = [st.nextPid] := by
    rw [hget]; exact (applyDataAttributes_preserves _).2.2.1
  refine ⟨?_, ?_, ?_⟩
  · rw [loadImage_not_loaded st i hl]
  · rw [fireLoad_single _ i st.nextPid hL1 hE1]
    refine ⟨by simp [List.count_cons], by simp [List.count_cons], ?_, ?_⟩ <;>
      rw [getImg_setImg_self _ i _ (by omega)]
  · rw [fireError_single _ i st.nextPid reason hL1 hE1]
    refine ⟨by simp [List.count_cons], by simp [List.count_cons], ?_, ?_⟩ <;>
      rw [getImg_setImg_self _ i _ (by omega)]

/-- C5 witness. -/
theorem load_listener_order_and_teardown_witness :
    (0 < st0.imgs.length ∧ (getImg st0 0).loadedClass = false ∧
     (getImg st0 0).loadLs = [] ∧ (getImg st0 0).errLs = []) ∧
    (loadImage st0 0).2.2 =
      [Evt.addLoadListener 0 st0.nextPid, Evt.addErrorListener 0 st0.nextPid, Evt.commit 0] :=
  ⟨⟨by decide, by decide, by decide, by decide⟩,
   (load_listener_order_and_teardown st0 0 "err" (by decide) (by decide) (by decide)
      (by decide)).1⟩

/-- C6: `load` on an element whose loadState is Loaded resolves
    immediately (the trace is a single resolution) and performs no side
    effects: no element is mutated, the observer is untouched, nothing
    is committed and no listener is registered. -/
theorem load_idempotent_on_loaded (st : GState) (i : Nat)
    (hl : (getImg st i).loadedClass = true) :
    (loadImage st i).1.imgs = st.imgs ∧
    (loadImage st i).1.obs = st.obs ∧
    (loadImage st i).2.2 = [Evt.resolveP st.nextPid] := by
  rw [loadImage_loaded st i hl]
  exact ⟨rfl, rfl, rfl⟩

/-- C6 witness. -/
theorem load_idempotent_on_loaded_witness :
    (getImg stL 0).loadedClass = true ∧
    ((loadImage stL 0).1.imgs = stL.imgs ∧
     (loadImage stL 0).1.obs = stL.obs ∧
     (loadImage stL 0).2.2 = [Evt.resolveP stL.nextPid]) :=
  ⟨by decide, load_idempotent_on_loaded stL 0 (by decide)⟩

/-- C1 counterexample: on the concrete one-element document `st0`,
    after a first `load` call the element is mid-flight (its listener
    pair is registered and it is not Loaded); a second `load` call
    nevertheless triggers `commitDescriptors` again (the two calls
    produce two commit actions, not one) and registers a second
    listener pair. -/
theorem load_on_loading_counterexample :
    ((getImg (loadImage st0 0).1 0).loadLs = [0] ∧
     (getImg (loadImage st0 0).1 0).loadedClass = false) ∧
    (loadImage (loadImage st0 0).1 0).2.2.count (Evt.commit 0) = 1 ∧
    ((loadImage st0 0).2.2 ++ (loadImage (loadImage st0 0).1 0).2.2).count (Evt.commit 0) = 2 ∧
    (getImg (loadImage (loadImage st0 0).1 0).1 0).loadLs = [0, 1] := by decide

/-- C1 amended: `load` guards only the Loaded state.  Calling `load`
    again on an element currently Loading re-triggers the commit (two
    concurrent calls produce two commit side effects) and registers a
    second listener pair; both callers still observe the same terminal
    outcome — when the load signal fires, both promises resolve and the
    element becomes Loaded. -/
theorem load_on_loading_recommits (st : GState) (i : Nat)
    (h : i < st.imgs.length)
    (hl : (getImg st i).loadedClass = false)
    (hL : (getImg st i).loadLs = []) (hE : (getImg st i).errLs = []) :
    ((loadImage st i).2.2 ++ (loadImage (loadImage st i).1 i).2.2).count (Evt.commit i) = 2 ∧
    (getImg (loadImage (loadImage st i).1 i).1 i).loadLs = [st.nextPid, st.nextPid + 1] ∧
    (getImg (loadImage (loadImage st i).1 i).1 i).errLs = [st.nextPid, st.nextPid + 1] ∧
    ((fireLoad (loadImage (loadImage st i).1 i).1 i).2.count (Evt.resolveP st.nextPid) = 1 ∧
     (fireLoad (loadImage (loadImage st i).1 i).1 i).2.count (Evt.resolveP (st.nextPid + 1)) = 1) ∧
    (getImg (fireLoad (loadImage (loadImage st i).1 i).1 i).1 i).loadedClass = true := by
  have hlen : (loadImage st i).1.imgs.length = st.imgs.length := loadImage_len st i
  have hget := loadImage_getImg_self st i h hl
  rw [hL, hE] at hget
  simp only [List.nil_append] at hget
  have hl1 : (getImg (loadImage st i).1 i).loadedClass = false := by
    rw [hget, (applyDataAttributes_preserves _).1]
    exact hl
  have hL1 : (getImg (loadImage st i).1 i).loadLs = [st.nextPid] := by
    rw [hget]
    exact (applyDataAttributes_preserves _).2.1
  have hE1 : (getImg (loadImage st i).1 i).errLs = [st.nextPid] := by
    rw [hget]
    exact (applyDataAttributes_preserves _).2.2.1
  have hget2 := loadImage_getImg_self (loadImage st i).1 i (by omega) hl1
  rw [hL1, hE1, loadImage_nextPid] at hget2
  simp only [List.singleton_append] at hget2
  have hL2 : (getImg (loadImage (loadImage st i).1 i).1 i).loadLs
      = [st.nextPid, st.nextPid + 1] := by
    rw [hget2]
    exact (applyDataAttributes_preserves _).2.1
  have hE2 : (getImg (loadImage (loadImage st i).1 i).1 i).errLs
      = [st.nextPid, st.nextPid + 1] := by
    rw [hget2]
    exact (applyDataAttributes_preserves _).2.2.1
  refine ⟨?_, hL2, hE2, ?_⟩
  · rw [List.count_append, loadImage_trace_not_loaded st i hl,
      loadImage_trace_not_loaded _ i hl1]
    simp [List.count_cons]
  · have hd := fireLoad_double (loadImage (loadImage st i).1 i).1 i st.nextPid (st.nextPid + 1)
      (by omega) (by rw [loadImage_len, loadImage_len]; exact h) hL2 hE2
    exact ⟨⟨hd.1, hd.2.1⟩, hd.2.2⟩

/-- C1 amended witness. -/
theorem load_on_loading_recommits_witness :
    (0 < st0.imgs.length ∧ (getImg st0 0).loadedClass = false ∧
     (getImg st0 0).loadLs = [] ∧ (getImg st0 0).errLs = []) ∧
    ((loadImage st0 0).2.2 ++ (loadImage (loadImage st0 0).1 0).2.2).count (Evt.commit 0) = 2 :=
  ⟨⟨by decide, by decide, by decide, by decide⟩,
   (load_on_loading_recommits st0 0 (by decide) (by decide) (by decide) (by decide)).1⟩

/-- C2 counterexample: on the concrete one-element document `st0`, load
    then fire the failure signal.  Afterwards the element is exactly the
    pre-load element with its descriptors committed — no Failed state is
    recorded anywhere on it — and the failure is not terminal: `loadAll`
    still selects the element and commits its descriptors again. -/
theorem failure_not_recorded_counterexample :
    getImg (fireError (loadImage st0 0).1 0 "network error").1 0 = applyDataAttributes img0 ∧
    loadAllSelect (fireError (loadImage st0 0).1 0 "network error").1 = [0] ∧
    (loadAll (fireError (loadImage st0 0).1 0 "network error").1).2.2.count (Evt.commit 0)
      = 1 := by decide

/-- C2 amended: when the failure signal fires for an in-flight load,
    both listeners are removed exactly once, the promise is rejected
    with the underlying failure reason, and no automatic retry occurs
    (the handler commits nothing); but no Failed state is recorded on
    the element — it still lacks the `loaded` marker and remains
    selected by `loadAll`, so a failed load is not terminal. -/
theorem error_signal_behaviour (st : GState) (i p : Nat) (reason : String)
    (h : i < st.imgs.length)
    (hl : (getImg st i).loadedClass = false)
    (hL : (getImg st i).loadLs = [p]) (hE : (getImg st i).errLs = [p]) :
    (fireError st i reason).2 =
      [Evt.removeErrorListener i p, Evt.warn reason, Evt.removeLoadListener i p,
       Evt.rejectP p reason] ∧
    (getImg (fireError st i reason).1 i).loadLs = [] ∧
    (getImg (fireError st i reason).1 i).errLs = [] ∧
    (getImg (fireError st i reason).1 i).loadedClass = false ∧
    (fireError st i reason).2.count (Evt.commit i) = 0 ∧
    i ∈ loadAllSelect (fireError st i reason).1 := by
  rw [fireError_single st i p reason hL hE]
  refine ⟨rfl, ?_, ?_, ?_, by simp [List.count_cons], ?_⟩ <;>
    simp [getImg_setImg_self _ i _ h, loadAllSelect, List.mem_filter, List.mem_range,
      length_setImg, h, hl]

/-- C2 amended witness. -/
theorem error_signal_behaviour_witness :
    (0 < (loadImage st0 0).1.imgs.length ∧
     (getImg (loadImage st0 0).1 0).loadedClass = false ∧
     (getImg (loadImage st0 0).1 0).loadLs = [0] ∧
     (getImg (loadImage st0 0).1 0).errLs = [0]) ∧
    0 ∈ loadAllSelect (fireError (loadImage st0 0).1 0 "boom").1 :=
  ⟨⟨by decide, by decide, by decide, by decide⟩,
   (error_signal_behaviour (loadImage st0 0).1 0 0 "boom" (by decide) (by decide) (by decide)
      (by decide)).2.2.2.2.2⟩

/-- C3 counterexample: on a one-element document whose element is
    Loaded with policy attribute `scroll`, `toggleMode false` changes
    the element's policy attribute to `click` — the state of a Loaded
    element is not left entirely unchanged. -/
theorem toggleMode_loaded_policy_counterexample :
    (getImg stL 0).loadedClass = true ∧
    (getImg stL 0).dataLoad = some "scroll" ∧
    (getImg (toggleMode stL false) 0).dataLoad = some "click" := by decide

/-! ### Projection facts about the observer primitives -/

theorem getImg_obsWatch (st : GState) (i j : Nat) : getImg (obsWatch st j) i = getImg st i := rfl

theorem getImg_obsUnwatch (st : GState) (i j : Nat) :
    getImg (obsUnwatch st j) i = getImg st i := rfl

theorem watchedOf_setImg (st : GState) (j : Nat) (img : Img) :
    watchedOf (setImg st j img) = watchedOf st := rfl

theorem ensureObserver_imgs (st : GState) : (ensureObserver st).imgs = st.imgs := by
  unfold ensureObserver
  cases h : st.obs <;> simp

theorem getImg_ensureObserver (st : GState) (i : Nat) :
    getImg (ensureObserver st) i = getImg st i := by
  unfold getImg
  rw [ensureObserver_imgs]

theorem ensureObserver_currentMode (st : GState) :
    (ensureObserver st).currentMode = st.currentMode := by
  unfold ensureObserver
  cases h : st.obs <;> simp

theorem ensureObserver_modeLabel (st : GState) :
    (ensureObserver st).modeLabel = st.modeLabel := by
  unfold ensureObserver
  cases h : st.obs <;> simp

theorem mem_watchedOf_ensureObserver (st : GState) (i : Nat) :
    i ∈ watchedOf (ensureObserver st) ↔ i ∈ watchedOf st := by
  unfold ensureObserver watchedOf
  cases h : st.obs <;> simp [h]

theorem obs_isSome_ensureObserver (st : GState) : (ensureObserver st).obs.isSome := by
  unfold ensureObserver
  cases h : st.obs <;> simp [h]

theorem mem_watchedOf_obsWatch_ne (st : GState) (i j : Nat) (hij : i ≠ j) :
    i ∈ watchedOf (obsWatch st j) ↔ i ∈ watchedOf st := by
  rcases h : st.obs with _ | o
  · simp [obsWatch, watchedOf, h]
  · by_cases hw : j ∈ o.watched <;> simp [obsWatch, watchedOf, h, hw, hij]

theorem mem_watchedOf_obsWatch_self (st : GState) (j : Nat) (ho : st.obs.isSome) :
    j ∈ watchedOf (obsWatch st j) := by
  rcases h : st.obs with _ | o
  · rw [h] at ho; cases ho
  · by_cases hw : j ∈ o.watched <;> simp [obsWatch, watchedOf, h, hw]

theorem mem_watchedOf_obsUnwatch_ne (st : GState) (i j : Nat) (hij : i ≠ j) :
    i ∈ watchedOf (obsUnwatch st j) ↔ i ∈ watchedOf st := by
  rcases h : st.obs with _ | o
  · simp [obsUnwatch, watchedOf, h]
  · simp only [obsUnwatch, watchedOf, h, Option.map]
    exact List.mem_erase_of_ne hij

theorem not_mem_watchedOf_obsUnwatch_self (st : GState) (j : Nat)
    (hnd : (watchedOf st).Nodup) :
    j ∉ watchedOf (obsUnwatch st j) := by
  rcases h : st.obs with _ | o
  · simp [obsUnwatch, watchedOf, h]
  · have hnd' : o.watched.Nodup := by simpa [watchedOf, h] using hnd
    simp only [obsUnwatch, watchedOf, h, Option.map]
    exact hnd'.not_mem_erase

theorem nodup_watchedOf_obsWatch (st : GState) (j : Nat) (hnd : (watchedOf st).Nodup) :
    (watchedOf (obsWatch st j)).Nodup := by
  rcases h : st.obs with _ | o
  · simp [obsWatch, watchedOf, h]
  · have hnd' : o.watched.Nodup := by simpa [watchedOf, h] using hnd
    by_cases hw : j ∈ o.watched
    · simpa [obsWatch, watchedOf, h, hw] using hnd'
    · simp only [obsWatch, watchedOf, h, Option.map, if_neg hw]
      simp [List.nodup_append, hnd', hw]

theorem nodup_watchedOf_obsUnwatch (st : GState) (j : Nat) (hnd : (watchedOf st).Nodup) :
    (watchedOf (obsUnwatch st j)).Nodup := by
  rcases h : st.obs with _ | o
  · simp [obsUnwatch, watchedOf, h]
  · have hnd' : o.watched.Nodup := by simpa [watchedOf, h] using hnd
    simp only [obsUnwatch, watchedOf, h, Option.map]
    exact hnd'.erase j

theorem nodup_watchedOf_ensureObserver (st : GState) (hnd : (watchedOf st).Nodup) :
    (watchedOf (ensureObserver st)).Nodup := by
  rcases h : st.obs with _ | o
  · simp [ensureObserver, watchedOf, h]
  · have hnd' : o.watched.Nodup := by simpa [watchedOf, h] using hnd
    simpa [ensureObserver, watchedOf, h] using hnd'

/-! ### Generic lemmas about folds over index lists -/

theorem foldl_pres {σ : Type} (step : σ → Nat → σ) (P : σ → Prop) :
    ∀ (L : List Nat) (st : σ), (∀ k ∈ L, ∀ st', P st' → P (step st' k)) → P st →
      P (L.foldl step st)
  | [], _, _, h => h
  | k :: rest, st, hstep, h =>
    foldl_pres step P rest (step st k)
      (fun j hj st' => hstep j (List.mem_cons_of_mem _ hj) st')
      (hstep k (List.mem_cons_self _ _) st h)

theorem foldl_process {σ : Type} (step : σ → Nat → σ) (Pre Post : Nat → σ → Prop)
    (est : ∀ j st', Pre j st' → Post j (step st' j))
    (presPre : ∀ i j st', i ≠ j → Pre i st' → Pre i (step st' j))
    (presPost : ∀ i j st', i ≠ j → Post i st' → Post i (step st' j)) :
    ∀ (L : List Nat) (st : σ), L.Nodup → (∀ i ∈ L, Pre i st) →
      ∀ i ∈ L, Post i (L.foldl step st) := by
  intro L
  induction L with
  | nil => intro st _ _ i hi; cases hi
  | cons j rest ih =>
    intro st hnd hpre i hi
    have hj : j ∉ rest := (List.nodup_cons.mp hnd).1
    have hnd' : rest.Nodup := (List.nodup_cons.mp hnd).2
    rw [List.foldl_cons]
    rcases List.mem_cons.mp hi with rfl | hir
    · exact foldl_pres step (Post i) rest (step st i)
        (fun k hk st' hp => presPost i k st' (fun hjk => hj (hjk ▸ hk)) hp)
        (est i st (hpre i hi))
    · exact ih (step st j) hnd'
        (fun i' hi' => presPre i' j st (fun hh => hj (hh ▸ hi'))
          (hpre i' (List.mem_cons_of_mem _ hi')))
        i hir

theorem foldl_fix {σ : Type} (step : σ → Nat → σ) :
    ∀ (L : List Nat) (st : σ), (∀ j ∈ L, step st j = st) → L.foldl step st = st
  | [], _, _ => rfl
  | j :: rest, st, h => by
    rw [List.foldl_cons, h j (List.mem_cons_self _ _)]
    exact foldl_fix step rest st (fun k hk => h k (List.mem_cons_of_mem _ hk))

/-! ### Per-element characterizations of `setupOne` and `toggleOne` -/

theorem obsWatch_imgs (st : GState) (j : Nat) : (obsWatch st j).imgs = st.imgs := rfl

theorem obsUnwatch_imgs (st : GState) (j : Nat) : (obsUnwatch st j).imgs = st.imgs := rfl

theorem setupOne_len (st : GState) (j : Nat) :
    (setupOne st j).imgs.length = st.imgs.length := by
  by_cases hm : loadModeOf (getImg st j) = "click" <;>
    simp [setupOne, hm, obsWatch_imgs, ensureObserver_imgs, setImg]

theorem setupOne_getImg_ne (st : GState) (i j : Nat) (hij : i ≠ j) :
    getImg (setupOne st j) i = getImg st i := by
  by_cases hm : loadModeOf (getImg st j) = "click" <;>
    simp [setupOne, hm, getImg_obsWatch, getImg_ensureObserver, getImg_setImg_ne _ i j _ hij]

theorem setupOne_getImg_self (st : GState) (i : Nat) (h : i < st.imgs.length) :
    getImg (setupOne st i) i =
      (if loadModeOf (getImg st i) = "click"
       then setBtn (getImg st i) (fun b => { b with hidden := false, handlerBound := true })
       else setBtn (getImg st i) (fun b => { b with hidden := true })) := by
  by_cases hm : loadModeOf (getImg st i) = "click" <;>
    simp [setupOne, hm, getImg_obsWatch, getImg_ensureObserver, getImg_setImg_self,
      length_setImg, h]

theorem toggleOne_len (mode : String) (st : GState) (j : Nat) :
    (toggleOne mode st j).imgs.length = st.imgs.length := by
  by_cases hl : (getImg st j).loadedClass <;> by_cases hm : mode = "scroll" <;>
    simp [toggleOne, hl, hm, obsWatch_imgs, obsUnwatch_imgs, ensureObserver_imgs, setImg]

theorem toggleOne_getImg_ne (mode : String) (st : GState) (i j : Nat) (hij : i ≠ j) :
    getImg (toggleOne mode st j) i = getImg st i := by
  by_cases hl : (getImg st j).loadedClass <;> by_cases hm : mode = "scroll" <;>
    simp [toggleOne, hl, hm, getImg_obsWatch, getImg_obsUnwatch, getImg_ensureObserver,
      getImg_setImg_ne _ i j _ hij]

theorem toggleOne_getImg_self (mode : String) (st : GState) (i : Nat)
    (h : i < st.imgs.length) :
    getImg (toggleOne mode st i) i =
      (if (getImg st i).loadedClass
       then { getImg st i with dataLoad := some mode }
       else if mode = "scroll"
       then setBtn { getImg st i with dataLoad := some mode } (fun b => { b with hidden := true })
       else setBtn { getImg st i with dataLoad := some mode }
         (fun b => { b with hidden := false })) := by
  by_cases hl : (getImg st i).loadedClass <;> by_cases hm : mode = "scroll" <;>
    simp [toggleOne, hl, hm, getImg_obsWatch, getImg_obsUnwatch, getImg_ensureObserver,
      getImg_setImg_self, length_setImg, h]

theorem toggleOne_watched_ne (mode : String) (st : GState) (i k : Nat) (hik : i ≠ k) :
    i ∈ watchedOf (toggleOne mode st k) ↔ i ∈ watchedOf st := by
  by_cases hl : (getImg st k).loadedClass <;> by_cases hm : mode = "scroll" <;>
    simp [toggleOne, hl, hm, watchedOf_setImg, hik, mem_watchedOf_obsWatch_ne,
      mem_watchedOf_ensureObserver, mem_watchedOf_obsUnwatch_ne]

theorem toggleOne_watched_loaded (mode : String) (st : GState) (i : Nat)
    (hl : (getImg st i).loadedClass = true) :
    watchedOf (toggleOne mode st i) = watchedOf st := by
  simp [toggleOne, hl, watchedOf_setImg]

/-! ### Whole-pass characterizations of `setupImages` and `toggleMode` -/

theorem setupImages_len (st : GState) :
    (setupImages st).imgs.length = st.imgs.length := by
  simp only [setupImages]
  exact foldl_pres setupOne (fun s => s.imgs.length = st.imgs.length)
    (List.range st.imgs.length) st
    (fun k _ st' hp => by
      show (setupOne st' k).imgs.length = st.imgs.length
      rw [setupOne_len]
      exact hp)
    rfl

theorem toggleMode_len (st : GState) (b : Bool) :
    (toggleMode st b).imgs.length = st.imgs.length := by
  simp only [toggleMode]
  exact foldl_pres (toggleOne (modeStr b)) (fun s => s.imgs.length = st.imgs.length)
    (List.range st.imgs.length) { st with currentMode := modeStr b, modeLabel := labelStr b }
    (fun k _ st' hp => by
      show (toggleOne (modeStr b) st' k).imgs.length = st.imgs.length
      rw [toggleOne_len]
      exact hp)
    rfl

theorem setupImages_getImg (st : GState) (i : Nat) (h : i < st.imgs.length) :
    getImg (setupImages st) i =
      (if loadModeOf (getImg st i) = "click"
       then setBtn (getImg st i) (fun b => { b with hidden := false, handlerBound := true })
       else setBtn (getImg st i) (fun b => { b with hidden := true })) := by
  simp only [setupImages]
  refine foldl_process setupOne
    (fun i' s => i' < s.imgs.length ∧ getImg s i' = getImg st i')
    (fun i' s => getImg s i' =
      (if loadModeOf (getImg st i') = "click"
       then setBtn (getImg st i') (fun b => { b with hidden := false, handlerBound := true })
       else setBtn (getImg st i') (fun b => { b with hidden := true })))
    ?_ ?_ ?_ (List.range st.imgs.length) st (List.nodup_range _)
    (fun i' hi' => ⟨List.mem_range.mp hi', rfl⟩) i (List.mem_range.mpr h)
  · intro j s hpre
    rw [setupOne_getImg_self s j hpre.1, hpre.2]
  · intro i' j s hij hpre
    exact ⟨by rw [setupOne_len]; exact hpre.1,
           by rw [setupOne_getImg_ne s i' j hij]; exact hpre.2⟩
  · intro i' j s hij hpost
    rw [setupOne_getImg_ne s i' j hij]
    exact hpost

theorem toggleMode_getImg (st : GState) (b : Bool) (i : Nat) (h : i < st.imgs.length) :
    getImg (toggleMode st b) i =
      (if (getImg st i).loadedClass
       then { getImg st i with dataLoad := some (modeStr b) }
       else if modeStr b = "scroll"
       then setBtn { getImg st i with dataLoad := some (modeStr b) }
         (fun x => { x with hidden := true })
       else setBtn { getImg st i with dataLoad := some (modeStr b) }
         (fun x => { x with hidden := false })) := by
  simp only [toggleMode]
  refine foldl_process (toggleOne (modeStr b))
    (fun i' s => i' < s.imgs.length ∧ getImg s i' = getImg st i')
    (fun i' s => getImg s i' =
      (if (getImg st i').loadedClass
       then { getImg st i' with dataLoad := some (modeStr b) }
       else if modeStr b = "scroll"
       then setBtn { getImg st i' with dataLoad := some (modeStr b) }
         (fun x => { x with hidden := true })
       else setBtn { getImg st i' with dataLoad := some (modeStr b) }
         (fun x => { x with hidden := false })))
    ?_ ?_ ?_ (List.range st.imgs.length)
    { st with currentMode := modeStr b, modeLabel := labelStr b } (List.nodup_range _)
    (fun i' hi' => ⟨List.mem_range.mp hi', rfl⟩) i (List.mem_range.mpr h)
  · intro j s hpre
    rw [toggleOne_getImg_self (modeStr b) s j hpre.1, hpre.2]
  · intro i' j s hij hpre
    exact ⟨by rw [toggleOne_len]; exact hpre.1,
           by rw [toggleOne_getImg_ne (modeStr b) s i' j hij]; exact hpre.2⟩
  · intro i' j s hij hpost
    rw [toggleOne_getImg_ne (modeStr b) s i' j hij]
    exact hpost

/-- C3: for an element already Loaded, `setMode` does change the policy
    attribute (the `data-load` write happens before the Loaded check),
    but touches nothing else: the element's whole record is the old one
    with only `dataLoad` replaced — so button visibility is untouched —
    and its scheduler watch status is unchanged. -/
theorem setMode_on_loaded_only_policy (st : GState) (b : Bool) (i : Nat)
    (h : i < st.imgs.length) (hl : (getImg st i).loadedClass = true) :
    getImg (toggleMode st b) i = { getImg st i with dataLoad := some (modeStr b) } ∧
    (i ∈ watchedOf (toggleMode st b) ↔ i ∈ watchedOf st) := by
  constructor
  · rw [toggleMode_getImg st b i h]
    simp [hl]
  · simp only [toggleMode]
    have hmem := foldl_pres (toggleOne (modeStr b))
      (fun s => i < s.imgs.length ∧ (getImg s i).loadedClass = true ∧
                (i ∈ watchedOf s ↔ i ∈ watchedOf st))
      (List.range st.imgs.length)
      { st with currentMode := modeStr b, modeLabel := labelStr b }
      (fun k _ st' hp => by
        show i < (toggleOne (modeStr b) st' k).imgs.length ∧
          (getImg (toggleOne (modeStr b) st' k) i).loadedClass = true ∧
          (i ∈ watchedOf (toggleOne (modeStr b) st' k) ↔ i ∈ watchedOf st)
        obtain ⟨hp1, hp2, hp3⟩ := hp
        by_cases hik : i = k
        · subst hik
          exact ⟨by rw [toggleOne_len]; exact hp1,
                 by rw [toggleOne_getImg_self _ _ _ hp1]; simp [hp2],
                 by rw [toggleOne_watched_loaded _ _ _ hp2]; exact hp3⟩
        · exact ⟨by rw [toggleOne_len]; exact hp1,
                 by rw [toggleOne_getImg_ne _ _ _ _ hik]; exact hp2,
                 by rw [toggleOne_watched_ne _ _ _ _ hik]; exact hp3⟩)
      ⟨h, hl, Iff.rfl⟩
    exact hmem.2.2

/-- C3 amended witness. -/
theorem setMode_on_loaded_only_policy_witness :
    (0 < stL.imgs.length ∧ (getImg stL 0).loadedClass = true) ∧
    getImg (toggleMode stL false) 0 = { getImg stL 0 with dataLoad := some (modeStr false) } :=
  ⟨⟨by decide, by decide⟩,
   (setMode_on_loaded_only_policy stL false 0 (by decide) (by decide)).1⟩

/-- C4: handlers are bound only at initialization and only for elements
    whose policy is Explicit (`click`) at that time.  An element that
    starts under Proximity (`scroll`) and is later switched to Explicit
    by `setMode` gets its affordance revealed with no handler bound, so
    activating the revealed affordance does nothing: no state change, no
    promise, no commit — no load is ever triggered. -/
theorem proximity_then_explicit_affordance_dead (st : GState) (i : Nat)
    (h : i < st.imgs.length)
    (hmode : loadModeOf (getImg st i) = "scroll")
    (hnb : ((getImg st i).btn.all fun b => !b.handlerBound) = true)
    (hl : (getImg st i).loadedClass = false) :
    (∀ b, (getImg (toggleMode (setupImages st) false) i).btn = some b →
       b.handlerBound = false ∧ b.hidden = false) ∧
    clickBtn (toggleMode (setupImages st) false) i =
      (toggleMode (setupImages st) false, none, []) := by
  have h1 : getImg (setupImages st) i = setBtn (getImg st i) (fun b => { b with hidden := true }) := by
    rw [setupImages_getImg st i h, if_neg (by simp [hmode])]
  have h1len : i < (setupImages st).imgs.length := by
    rw [setupImages_len]
    exact h
  have h1l : (getImg (setupImages st) i).loadedClass = false := by
    rw [h1]
    exact hl
  have h2 : getImg (toggleMode (setupImages st) false) i =
      setBtn { getImg (setupImages st) i with dataLoad := some (modeStr false) }
        (fun x => { x with hidden := false }) := by
    rw [toggleMode_getImg _ false i h1len]
    simp [h1l, modeStr]
  constructor
  · intro b hb
    rw [h2, h1] at hb
    rcases hob : (getImg st i).btn with _ | b0
    · simp [setBtn, hob] at hb
    · rw [hob] at hnb
      simp only [Option.all_some, Bool.not_eq_true'] at hnb
      simp [setBtn, hob] at hb
      rw [← hb]
      exact ⟨hnb, rfl⟩
  · rcases hob : (getImg st i).btn with _ | b0
    · simp [clickBtn, h2, h1, setBtn, hob]
    · rw [hob] at hnb
      simp only [Option.all_some, Bool.not_eq_true'] at hnb
      simp [clickBtn, h2, h1, setBtn, hob, hnb]

/-- C4 witness. -/
theorem proximity_then_explicit_affordance_dead_witness :
    (0 < st0.imgs.length ∧ loadModeOf (getImg st0 0) = "scroll" ∧
     ((getImg st0 0).btn.all fun b => !b.handlerBound) = true ∧
     (getImg st0 0).loadedClass = false) ∧
    clickBtn (toggleMode (setupImages st0) false) 0 =
      (toggleMode (setupImages st0) false, none, []) :=
  ⟨⟨by decide, by decide, by decide, by decide⟩,
   (proximity_then_explicit_affordance_dead st0 0 (by decide) (by decide) (by decide)
      (by decide)).2⟩

/-! ### C8 and C10: observer callback and observer lifecycle -/

theorem watchedOf_congr_obs (s t : GState) (h : s.obs = t.obs) :
    watchedOf s = watchedOf t := by
  unfold watchedOf
  rw [h]

/-- C8: on a proximity-crossing entry for a watched element: if the
    element's current policy is no longer `scroll`, the entry is ignored
    — no state change, no actions, the element stays watched (no
    unwatch at this call site); if it is still `scroll`, `load` is run
    (the `.catch` at this call site swallows any failure, the promise id
    is dropped) and the element is then unwatched, so no further
    proximity trigger can fire for it.  Non-intersecting entries are
    ignored outright. -/
theorem observer_entry_behaviour (st : GState) (i : Nat)
    (hw : i ∈ watchedOf st) (hnd : (watchedOf st).Nodup) :
    (loadModeOf (getImg st i) ≠ "scroll" →
       onIntersect st i true = (st, []) ∧ i ∈ watchedOf (onIntersect st i true).1) ∧
    (loadModeOf (getImg st i) = "scroll" →
       (onIntersect st i true).1 = obsUnwatch (loadImage st i).1 i ∧
       (onIntersect st i true).2 = (loadImage st i).2.2 ∧
       i ∉ watchedOf (onIntersect st i true).1) ∧
    onIntersect st i false = (st, []) := by
  refine ⟨fun hm => ?_, fun hm => ?_, by simp [onIntersect]⟩
  · have hid : onIntersect st i true = (st, []) := by
      simp [onIntersect, hm]
    exact ⟨hid, by rw [hid]; exact hw⟩
  · have h1 : (onIntersect st i true).1 = obsUnwatch (loadImage st i).1 i := by
      simp [onIntersect, hm]
    refine ⟨h1, by simp [onIntersect, hm], ?_⟩
    rw [h1]
    apply not_mem_watchedOf_obsUnwatch_self
    rw [watchedOf_congr_obs (loadImage st i).1 st (loadImage_obs st i)]
    exact hnd

/-- C8 witness. -/
theorem observer_entry_behaviour_witness :
    (0 ∈ watchedOf stW ∧ (watchedOf stW).Nodup ∧ loadModeOf (getImg stW 0) = "scroll") ∧
    0 ∉ watchedOf (onIntersect stW 0 true).1 :=
  ⟨⟨by decide, by decide, by decide⟩,
   ((observer_entry_behaviour stW 0 (by decide) (by decide)).2.1 (by decide)).2.2⟩

/-- C10: the scheduler is one shared instance: when it exists,
    `ensureObserver` returns the state unchanged (reuse) and `observe`
    keeps the same instance (same generation); `disconnect` discards the
    instance without touching any element; the next need lazily creates
    a fresh instance (empty watch set, a generation no prior instance
    had); and an in-flight load is unaffected by `disconnect` — its
    signal still settles the promise, to Loaded on success and with the
    element's load state untouched on failure. -/
theorem observer_lifecycle (st : GState) (o : Obs) (i p : Nat)
    (ho : st.obs = some o) (hgen : o.gen < st.nextGen)
    (h : i < st.imgs.length)
    (hL : (getImg st i).loadLs = [p]) (hE : (getImg st i).errLs = [p]) :
    ensureObserver st = st ∧
    (∀ j : Nat, ((obsWatch st j).obs).map Obs.gen = some o.gen) ∧
    (disconnectObserver st).1.obs = none ∧
    (disconnectObserver st).1.imgs = st.imgs ∧
    (ensureObserver (disconnectObserver st).1).obs
      = some { watched := [], gen := st.nextGen } ∧
    st.nextGen ≠ o.gen ∧
    ((getImg (fireLoad (disconnectObserver st).1 i).1 i).loadedClass = true ∧
     settledIn (fireLoad (disconnectObserver st).1 i).2 p = true) ∧
    ((getImg (fireError (disconnectObserver st).1 i "err").1 i).loadedClass
        = (getImg st i).loadedClass ∧
     settledIn (fireError (disconnectObserver st).1 i "err").2 p = true) := by
  have hdisc : (disconnectObserver st).1 = { st with obs := none } := by
    unfold disconnectObserver
    rw [ho]
  have hLd : (getImg { st with obs := none } i).loadLs = [p] := hL
  have hEd : (getImg { st with obs := none } i).errLs = [p] := hE
  refine ⟨?_, ?_, ?_, ?_, ?_, by omega, ?_, ?_⟩
  · unfold ensureObserver
    rw [ho]
  · intro j
    unfold obsWatch
    rw [ho]
    by_cases hwj : j ∈ o.watched <;> simp [hwj]
  · rw [hdisc]
  · rw [hdisc]
  · rw [hdisc]
    rfl
  · rw [hdisc, fireLoad_single _ i p hLd hEd]
    constructor
    · rw [getImg_setImg_self _ i _ (by exact h)]
    · simp [settledIn, settlesP]
  · rw [hdisc, fireError_single _ i p "err" hLd hEd]
    constructor
    · rw [getImg_setImg_self _ i _ (by exact h)]
      rfl
    · simp [settledIn, settlesP]

/-- C10 witness. -/
theorem observer_lifecycle_witness :
    (stF.obs = some { watched := [], gen := 0 } ∧ (0 : Nat) < stF.nextGen ∧
     0 < stF.imgs.length ∧ (getImg stF 0).loadLs = [5] ∧ (getImg stF 0).errLs = [5]) ∧
    ensureObserver stF = stF :=
  ⟨⟨by decide, by decide, by decide, by decide, by decide⟩,
   (observer_lifecycle stF { watched := [], gen := 0 } 0 5 (by decide) (by decide) (by decide)
      (by decide) (by decide)).1⟩

/-! ### C9: idempotence of `toggleMode` -/

theorem list_set_getD_self {α : Type} : ∀ (l : List α) (i : Nat), i < l.length →
    ∀ d, l.set i (l.getD i d) = l
  | _ :: _, 0, _, _ => by simp [List.getD]
  | a :: l, i + 1, h, d => by
    simp only [List.set, List.getD, List.getElem?_cons_succ]
    have := list_set_getD_self l i (by simpa using h) d
    simp [List.getD] at this
    simp [this]

theorem setImg_getImg_self (st : GState) (i : Nat) (h : i < st.imgs.length) :
    setImg st i (getImg st i) = st := by
  unfold setImg getImg
  rw [list_set_getD_self st.imgs i h default]

theorem Img_dataLoad_self (img : Img) (m : String) (h : img.dataLoad = some m) :
    { img with dataLoad := some m } = img := by
  rw [← h]

theorem Btn_hidden_self (x : Btn) (v : Bool) (h : x.hidden = v) :
    { x with hidden := v } = x := by
  rw [← h]

theorem setBtn_hidden_self (img : Img) (v : Bool)
    (h : ∀ x, img.btn = some x → x.hidden = v) :
    setBtn img (fun b => { b with hidden := v }) = img := by
  unfold setBtn
  have hmap : img.btn.map (fun b => { b with hidden := v }) = img.btn := by
    cases hob : img.btn with
    | none => rfl
    | some x =>
      show some { x with hidden := v } = some x
      rw [Btn_hidden_self x v (h x hob)]
  rw [hmap]

theorem ensureObserver_eq_self (st : GState) (h : st.obs.isSome = true) :
    ensureObserver st = st := by
  unfold ensureObserver
  cases hob : st.obs with
  | none => rw [hob] at h; simp at h
  | some o => rfl

theorem obsWatch_eq_self (st : GState) (j : Nat) (h : j ∈ watchedOf st) :
    obsWatch st j = st := by
  unfold obsWatch
  have hmap : (st.obs.map fun o =>
      if j ∈ o.watched then o else { o with watched := o.watched ++ [j] }) = st.obs := by
    cases hob : st.obs with
    | none => rfl
    | some o =>
      have hw : j ∈ o.watched := by simpa [watchedOf, hob] using h
      show some (if j ∈ o.watched then o else _) = some o
      rw [if_pos hw]
  rw [hmap]

theorem obsUnwatch_eq_self (st : GState) (j : Nat) (h : j ∉ watchedOf st) :
    obsUnwatch st j = st := by
  unfold obsUnwatch
  have hmap : (st.obs.map fun o => { o with watched := o.watched.erase j }) = st.obs := by
    cases hob : st.obs with
    | none => rfl
    | some o =>
      have hw : j ∉ o.watched := by simpa [watchedOf, hob] using h
      show some { o with watched := o.watched.erase j } = some o
      rw [List.erase_of_not_mem hw]
  rw [hmap]

theorem toggleOne_fix (mode : String) (st : GState) (j : Nat) (hj : j < st.imgs.length)
    (hdl : (getImg st j).dataLoad = some mode)
    (hcond : (getImg st j).loadedClass = false →
      (mode = "scroll" →
        (∀ x, (getImg st j).btn = some x → x.hidden = true) ∧
        j ∈ watchedOf st ∧ st.obs.isSome = true) ∧
      (mode ≠ "scroll" →
        (∀ x, (getImg st j).btn = some x → x.hidden = false) ∧
        j ∉ watchedOf st)) :
    toggleOne mode st j = st := by
  have himg : { getImg st j with dataLoad := some mode } = getImg st j :=
    Img_dataLoad_self _ _ hdl
  simp only [toggleOne, himg]
  by_cases hl : (getImg st j).loadedClass
  · rw [if_pos hl, setImg_getImg_self st j hj]
  · have hl' : (getImg st j).loadedClass = false := by simpa using hl
    obtain ⟨hsc, hcl⟩ := hcond hl'
    rw [if_neg hl]
    by_cases hm : mode = "scroll"
    · obtain ⟨hb, hwj, hos⟩ := hsc hm
      rw [if_pos hm, setImg_getImg_self st j hj, setBtn_hidden_self _ _ hb,
        setImg_getImg_self st j hj, ensureObserver_eq_self st hos, obsWatch_eq_self st j hwj]
    · obtain ⟨hb, hwj⟩ := hcl hm
      rw [if_neg hm, setImg_getImg_self st j hj, setBtn_hidden_self _ _ hb,
        setImg_getImg_self st j hj, obsUnwatch_eq_self st j hwj]

theorem toggleMode_fix (st : GState) (b : Bool)
    (hcm : st.currentMode = modeStr b) (hml : st.modeLabel = labelStr b)
    (hfact : ∀ i, i < st.imgs.length →
      (getImg st i).dataLoad = some (modeStr b) ∧
      ((getImg st i).loadedClass = false →
        (b = true → (∀ x, (getImg st i).btn = some x → x.hidden = true) ∧
          i ∈ watchedOf st ∧ st.obs.isSome = true) ∧
        (b = false → (∀ x, (getImg st i).btn = some x → x.hidden = false) ∧
          i ∉ watchedOf st))) :
    toggleMode st b = st := by
  unfold toggleMode
  rw [show { st with currentMode := modeStr b, modeLabel := labelStr b } = st by
    rw [← hcm, ← hml]]
  apply foldl_fix
  intro j hj
  have hjl : j < st.imgs.length := List.mem_range.mp hj
  obtain ⟨hdl, hcond⟩ := hfact j hjl
  apply toggleOne_fix _ _ _ hjl hdl
  intro hl
  obtain ⟨h1, h2⟩ := hcond hl
  cases b with
  | true => exact ⟨fun _ => h1 rfl, fun hm => absurd rfl hm⟩
  | false => exact ⟨fun hm => absurd hm (by decide), fun _ => h2 rfl⟩

theorem obsWatch_obs_isSome (st : GState) (j : Nat) (h : st.obs.isSome = true) :
    (obsWatch st j).obs.isSome = true := by
  unfold obsWatch
  cases hob : st.obs with
  | none => rw [hob] at h; simp at h
  | some o => simp

theorem toggleOne_watched_self_scroll (st : GState) (j : Nat)
    (hl : (getImg st j).loadedClass = false) :
    j ∈ watchedOf (toggleOne "scroll" st j) ∧
    (toggleOne "scroll" st j).obs.isSome = true := by
  simp only [toggleOne]
  split
  · next hcond => simp [hl] at hcond
  · split
    · exact ⟨mem_watchedOf_obsWatch_self _ j (obs_isSome_ensureObserver _),
             obsWatch_obs_isSome _ j (obs_isSome_ensureObserver _)⟩
    · next hm => simp at hm

theorem toggleOne_unwatched_self_click (mode : String) (st : GState) (j : Nat)
    (hm : mode ≠ "scroll") (hl : (getImg st j).loadedClass = false)
    (hnd : (watchedOf st).Nodup) :
    j ∉ watchedOf (toggleOne mode st j) := by
  simp only [toggleOne]
  rw [if_neg (by simp [hl]), if_neg hm]
  apply not_mem_watchedOf_obsUnwatch_self
  exact hnd

theorem toggleOne_nodup (mode : String) (st : GState) (j : Nat)
    (hnd : (watchedOf st).Nodup) :
    (watchedOf (toggleOne mode st j)).Nodup := by
  simp only [toggleOne]
  split
  · exact hnd
  · split
    · exact nodup_watchedOf_obsWatch _ j (nodup_watchedOf_ensureObserver _ hnd)
    · exact nodup_watchedOf_obsUnwatch _ j hnd

theorem obsWatch_currentMode (st : GState) (j : Nat) :
    (obsWatch st j).currentMode = st.currentMode := rfl

theorem obsUnwatch_currentMode (st : GState) (j : Nat) :
    (obsUnwatch st j).currentMode = st.currentMode := rfl

theorem obsWatch_modeLabel (st : GState) (j : Nat) :
    (obsWatch st j).modeLabel = st.modeLabel := rfl

theorem obsUnwatch_modeLabel (st : GState) (j : Nat) :
    (obsUnwatch st j).modeLabel = st.modeLabel := rfl

theorem toggleOne_currentMode (mode : String) (st : GState) (j : Nat) :
    (toggleOne mode st j).currentMode = st.currentMode := by
  simp only [toggleOne]
  split
  · rfl
  · split
    · rw [obsWatch_currentMode, ensureObserver_currentMode]
      rfl
    · rw [obsUnwatch_currentMode]
      rfl

theorem toggleOne_modeLabel (mode : String) (st : GState) (j : Nat) :
    (toggleOne mode st j).modeLabel = st.modeLabel := by
  simp only [toggleOne]
  split
  · rfl
  · split
    · rw [obsWatch_modeLabel, ensureObserver_modeLabel]
      rfl
    · rw [obsUnwatch_modeLabel]
      rfl

theorem toggleMode_currentMode (st : GState) (b : Bool) :
    (toggleMode st b).currentMode = modeStr b := by
  simp only [toggleMode]
  exact foldl_pres (toggleOne (modeStr b)) (fun s => s.currentMode = modeStr b)
    (List.range st.imgs.length) { st with currentMode := modeStr b, modeLabel := labelStr b }
    (fun k _ st' hp => by
      show (toggleOne (modeStr b) st' k).currentMode = modeStr b
      rw [toggleOne_currentMode]
      exact hp)
    rfl

theorem toggleMode_modeLabel (st : GState) (b : Bool) :
    (toggleMode st b).modeLabel = labelStr b := by
  simp only [toggleMode]
  exact foldl_pres (toggleOne (modeStr b)) (fun s => s.modeLabel = labelStr b)
    (List.range st.imgs.length) { st with currentMode := modeStr b, modeLabel := labelStr b }
    (fun k _ st' hp => by
      show (toggleOne (modeStr b) st' k).modeLabel = labelStr b
      rw [toggleOne_modeLabel]
      exact hp)
    rfl

theorem toggleMode_nodup (st : GState) (b : Bool) (hnd : (watchedOf st).Nodup) :
    (watchedOf (toggleMode st b)).Nodup := by
  simp only [toggleMode]
  exact foldl_pres (toggleOne (modeStr b)) (fun s => (watchedOf s).Nodup)
    (List.range st.imgs.length) { st with currentMode := modeStr b, modeLabel := labelStr b }
    (fun k _ st' hp => by
      show (watchedOf (toggleOne (modeStr b) st' k)).Nodup
      exact toggleOne_nodup _ _ _ hp)
    hnd

theorem btn_of_setBtn (img : Img) (g : Btn → Btn) (v : Bool)
    (hg : ∀ x, (g x).hidden = v) :
    ∀ x, (setBtn img g).btn = some x → x.hidden = v := by
  intro x hx
  unfold setBtn at hx
  cases hob : img.btn with
  | none => rw [hob] at hx; cases hx
  | some y =>
    rw [hob] at hx
    injection hx with hgy
    rw [← hgy]
    exact hg y

theorem obsUnwatch_obs_isSome (st : GState) (j : Nat) :
    (obsUnwatch st j).obs.isSome = st.obs.isSome := by
  unfold obsUnwatch
  cases hob : st.obs <;> simp [hob]

theorem toggleOne_obs_isSome (mode : String) (st : GState) (j : Nat)
    (h : st.obs.isSome = true) :
    (toggleOne mode st j).obs.isSome = true := by
  simp only [toggleOne]
  split
  · exact h
  · split
    · exact obsWatch_obs_isSome _ j (obs_isSome_ensureObserver _)
    · rw [obsUnwatch_obs_isSome]
      exact h

theorem toggleOne_establishes (b : Bool) (st : GState) (j : Nat)
    (hj : j < st.imgs.length) (hnd : (watchedOf st).Nodup) :
    (getImg (toggleOne (modeStr b) st j) j).dataLoad = some (modeStr b) ∧
    ((getImg (toggleOne (modeStr b) st j) j).loadedClass = false →
      (b = true →
        (∀ x, (getImg (toggleOne (modeStr b) st j) j).btn = some x → x.hidden = true) ∧
        j ∈ watchedOf (toggleOne (modeStr b) st j) ∧
        (toggleOne (modeStr b) st j).obs.isSome = true) ∧
      (b = false →
        (∀ x, (getImg (toggleOne (modeStr b) st j) j).btn = some x → x.hidden = false) ∧
        j ∉ watchedOf (toggleOne (modeStr b) st j))) := by
  have hchar := toggleOne_getImg_self (modeStr b) st j hj
  by_cases hl : (getImg st j).loadedClass
  · refine ⟨?_, fun hfalse => ?_⟩
    · rw [hchar]
      simp [hl]
    · rw [hchar] at hfalse
      simp [hl] at hfalse
  · have hl' : (getImg st j).loadedClass = false := by simpa using hl
    cases b with
    | true =>
      have hws := toggleOne_watched_self_scroll st j hl'
      refine ⟨?_, fun _ => ⟨fun _ => ⟨?_, hws.1, hws.2⟩, fun hb => Bool.noConfusion hb⟩⟩
      · rw [hchar]
        simp [hl', modeStr, setBtn]
      · intro x hx
        rw [hchar] at hx
        simp only [hl', modeStr, Bool.false_eq_true, if_false, if_true,
          String.reduceEq, ite_true, ite_false] at hx
        exact btn_of_setBtn _ _ true (fun y => rfl) x hx
    | false =>
      refine ⟨?_, fun _ => ⟨fun hb => Bool.noConfusion hb, fun _ => ⟨?_, ?_⟩⟩⟩
      · rw [hchar]
        simp [hl', modeStr, setBtn]
      · intro x hx
        rw [hchar] at hx
        simp only [hl', modeStr, Bool.false_eq_true, if_false, if_true,
          String.reduceEq, ite_true, ite_false] at hx
        exact btn_of_setBtn _ _ false (fun y => rfl) x hx
      · exact toggleOne_unwatched_self_click (modeStr false) st j (by decide) hl' hnd

theorem toggleMode_facts (st : GState) (b : Bool) (hnd : (watchedOf st).Nodup) :
    ∀ i, i < st.imgs.length →
      (getImg (toggleMode st b) i).dataLoad = some (modeStr b) ∧
      ((getImg (toggleMode st b) i).loadedClass = false →
        (b = true →
          (∀ x, (getImg (toggleMode st b) i).btn = some x → x.hidden = true) ∧
          i ∈ watchedOf (toggleMode st b) ∧ (toggleMode st b).obs.isSome = true) ∧
        (b = false →
          (∀ x, (getImg (toggleMode st b) i).btn = some x → x.hidden = false) ∧
          i ∉ watchedOf (toggleMode st b))) := by
  intro i hi
  simp only [toggleMode]
  refine foldl_process (toggleOne (modeStr b))
    (fun i' s => i' < s.imgs.length ∧ (watchedOf s).Nodup)
    (fun i' s =>
      (getImg s i').dataLoad = some (modeStr b) ∧
      ((getImg s i').loadedClass = false →
        (b = true → (∀ x, (getImg s i').btn = some x → x.hidden = true) ∧
          i' ∈ watchedOf s ∧ s.obs.isSome = true) ∧
        (b = false → (∀ x, (getImg s i').btn = some x → x.hidden = false) ∧
          i' ∉ watchedOf s)))
    ?_ ?_ ?_ (List.range st.imgs.length)
    { st with currentMode := modeStr b, modeLabel := labelStr b }
    (List.nodup_range _) (fun i' hi' => ⟨List.mem_range.mp hi', hnd⟩) i (List.mem_range.mpr hi)
  · intro j s hpre
    exact toggleOne_establishes b s j hpre.1 hpre.2
  · intro i' j s hij hpre
    exact ⟨by rw [toggleOne_len]; exact hpre.1, toggleOne_nodup _ s j hpre.2⟩
  · intro i' j s hij hpost
    obtain ⟨hdl, hrest⟩ := hpost
    refine ⟨by rw [toggleOne_getImg_ne _ _ _ _ hij]; exact hdl, ?_⟩
    intro hfalse
    rw [toggleOne_getImg_ne _ _ _ _ hij] at hfalse
    obtain ⟨ht, hf⟩ := hrest hfalse
    constructor
    · intro hb
      obtain ⟨hbtn, hmem, hsome⟩ := ht hb
      exact ⟨by rw [toggleOne_getImg_ne _ _ _ _ hij]; exact hbtn,
             (toggleOne_watched_ne _ _ _ _ hij).mpr hmem,
             toggleOne_obs_isSome _ s j hsome⟩
    · intro hb
      obtain ⟨hbtn, hmem⟩ := hf hb
      exact ⟨by rw [toggleOne_getImg_ne _ _ _ _ hij]; exact hbtn,
             fun hcon => hmem ((toggleOne_watched_ne _ _ _ _ hij).mp hcon)⟩

/-- C9: `setMode` is idempotent: starting from any state whose watch set
    is duplicate-free (an invariant of the real scheduler, whose
    `observe` is a no-op on an already-observed target), calling
    `toggleMode` twice with the same boolean yields exactly the state of
    calling it once — same watch set (no element double-registered),
    same affordance visibility for every element, same mode label. -/
theorem setMode_idempotent (st : GState) (b : Bool) (hnd : (watchedOf st).Nodup) :
    toggleMode (toggleMode st b) b = toggleMode st b := by
  apply toggleMode_fix (toggleMode st b) b (toggleMode_currentMode st b)
    (toggleMode_modeLabel st b)
  intro i hi
  have hi' : i < st.imgs.length := by rw [toggleMode_len] at hi; exact hi
  exact toggleMode_facts st b hnd i hi'

/-- C9 witness. -/
theorem setMode_idempotent_witness :
    (watchedOf st0).Nodup ∧ toggleMode (toggleMode st0 true) true = toggleMode st0 true :=
  ⟨by decide, setMode_idempotent st0 true (by decide)⟩

/-! ### C7: `loadAll` bulk loading -/

theorem settledIn_append (tr1 tr2 : List Evt) (p : Nat) :
    settledIn (tr1 ++ tr2) p = (settledIn tr1 p || settledIn tr2 p) := by
  simp [settledIn, List.any_append]

theorem filter_length_split {α : Type} (q : α → Bool) :
    ∀ (l : List α), (l.filter q).length + (l.filter (fun a => !q a)).length = l.length
  | [] => rfl
  | x :: l => by
    have ih := filter_length_split q l
    by_cases h : q x
    · rw [List.filter_cons_of_pos h, List.filter_cons_of_neg (by simp [h])]
      simp only [List.length_cons]
      omega
    · rw [List.filter_cons_of_neg h, List.filter_cons_of_pos (by simp [h])]
      simp only [List.length_cons]
      omega

theorem forall₂_imp_mem {α β : Type} {R S : α → β → Prop} :
    ∀ {l1 : List α} {l2 : List β}, (∀ a b, a ∈ l1 → R a b → S a b) →
      List.Forall₂ R l1 l2 → List.Forall₂ S l1 l2
  | _, _, _, List.Forall₂.nil => List.Forall₂.nil
  | _, _, h, List.Forall₂.cons hr hrest =>
    List.Forall₂.cons (h _ _ (List.mem_cons_self _ _) hr)
      (forall₂_imp_mem (fun a b ha => h a b (List.mem_cons_of_mem _ ha)) hrest)

theorem forall₂_mem_right {α β : Type} {R : α → β → Prop} :
    ∀ {l1 : List α} {l2 : List β}, List.Forall₂ R l1 l2 → ∀ b ∈ l2, ∃ a ∈ l1, R a b
  | _, _, List.Forall₂.nil => by intro b hb; cases hb
  | _, _, List.Forall₂.cons hr hrest => by
    intro b hb
    rcases List.mem_cons.mp hb with rfl | h2
    · exact ⟨_, List.mem_cons_self .., hr⟩
    · obtain ⟨a, ha, hab⟩ := forall₂_mem_right hrest b h2
      exact ⟨a, List.mem_cons_of_mem _ ha, hab⟩

theorem forall₂_mem_left {α β : Type} {R : α → β → Prop} :
    ∀ {l1 : List α} {l2 : List β}, List.Forall₂ R l1 l2 → ∀ a ∈ l1, ∃ b ∈ l2, R a b
  | _, _, List.Forall₂.nil => by intro a ha; cases ha
  | _, _, List.Forall₂.cons hr hrest => by
    intro a ha
    rcases List.mem_cons.mp ha with rfl | h2
    · exact ⟨_, List.mem_cons_self .., hr⟩
    · obtain ⟨b, hb, hab⟩ := forall₂_mem_left hrest a h2
      exact ⟨b, List.mem_cons_of_mem _ hb, hab⟩

theorem loadAllAux_spec : ∀ (sel : List Nat) (st : GState),
    sel.Nodup →
    (∀ i ∈ sel, i < st.imgs.length ∧ (getImg st i).loadedClass = false ∧
      (getImg st i).loadLs = [] ∧ (getImg st i).errLs = []) →
    (loadAllAux sel st).1.imgs.length = st.imgs.length ∧
    (∀ j, j ∉ sel → getImg (loadAllAux sel st).1 j = getImg st j) ∧
    List.Forall₂ (fun i p => i < st.imgs.length ∧
        (getImg (loadAllAux sel st).1 i).loadedClass = false ∧
        (getImg (loadAllAux sel st).1 i).loadLs = [p] ∧
        (getImg (loadAllAux sel st).1 i).errLs = [p]) sel (loadAllAux sel st).2.1
  | [], st, _, _ => ⟨rfl, fun _ _ => rfl, List.Forall₂.nil⟩
  | i :: rest, st, hnd, hsel => by
    obtain ⟨hi, hl, hL, hE⟩ := hsel i (List.mem_cons_self _ _)
    have hinr : i ∉ rest := (List.nodup_cons.mp hnd).1
    have hget1 := loadImage_getImg_self st i hi hl
    rw [hL, hE] at hget1
    simp only [List.nil_append] at hget1
    have hl1 : (getImg (loadImage st i).1 i).loadedClass = false := by
      rw [hget1, (applyDataAttributes_preserves _).1]
      exact hl
    have hL1 : (getImg (loadImage st i).1 i).loadLs = [st.nextPid] := by
      rw [hget1]
      exact (applyDataAttributes_preserves _).2.1
    have hE1 : (getImg (loadImage st i).1 i).errLs = [st.nextPid] := by
      rw [hget1]
      exact (applyDataAttributes_preserves _).2.2.1
    have hrest := loadAllAux_spec rest (loadImage st i).1 (List.nodup_cons.mp hnd).2
      (fun j hj => by
        have hne : j ≠ i := fun hh => hinr (hh ▸ hj)
        obtain ⟨hj1, hj2, hj3, hj4⟩ := hsel j (List.mem_cons_of_mem _ hj)
        rw [loadImage_getImg_ne st i j hne, loadImage_len]
        exact ⟨hj1, hj2, hj3, hj4⟩)
    have hunf : loadAllAux (i :: rest) st =
        ((loadAllAux rest (loadImage st i).1).1,
         (loadImage st i).2.1 :: (loadAllAux rest (loadImage st i).1).2.1,
         (loadImage st i).2.2 ++ (loadAllAux rest (loadImage st i).1).2.2) := rfl
    rw [hunf]
    refine ⟨by rw [hrest.1, loadImage_len], ?_, ?_⟩
    · intro j hj
      have hjr : j ∉ rest := fun hh => hj (List.mem_cons_of_mem _ hh)
      have hji : j ≠ i := fun hh => hj (hh ▸ List.mem_cons_self _ _)
      show getImg (loadAllAux rest (loadImage st i).1).1 j = getImg st j
      rw [hrest.2.1 j hjr, loadImage_getImg_ne st i j hji]
    · show List.Forall₂ _ (i :: rest) ((loadImage st i).2.1 :: _)
      refine List.Forall₂.cons ?_ ?_
      · have hgi : getImg (loadAllAux rest (loadImage st i).1).1 i
            = getImg (loadImage st i).1 i := hrest.2.1 i hinr
        rw [loadImage_pid]
        exact ⟨hi, by rw [hgi]; exact hl1, by rw [hgi]; exact hL1, by rw [hgi]; exact hE1⟩
      · exact List.Forall₂.imp
          (fun a b h => ⟨by rw [← loadImage_len st i]; exact h.1, h.2.1, h.2.2.1, h.2.2.2⟩)
          hrest.2.2

theorem fire_one (f : Nat → Bool) (reason : String) (st : GState) (i p : Nat)
    (hi : i < st.imgs.length) (hl : (getImg st i).loadedClass = false)
    (hL : (getImg st i).loadLs = [p]) (hE : (getImg st i).errLs = [p]) :
    (if f i then fireLoad st i else fireError st i reason).1.imgs.length = st.imgs.length ∧
    (∀ j, j ≠ i →
      getImg (if f i then fireLoad st i else fireError st i reason).1 j = getImg st j) ∧
    (getImg (if f i then fireLoad st i else fireError st i reason).1 i).loadedClass = f i ∧
    settledIn (if f i then fireLoad st i else fireError st i reason).2 p = true := by
  by_cases hfi : f i
  · simp only [hfi, if_true]
    rw [fireLoad_single st i p hL hE]
    refine ⟨by rw [length_setImg], fun j hj => getImg_setImg_ne _ j i _ hj, ?_, ?_⟩
    · rw [getImg_setImg_self _ i _ hi]
    · simp [settledIn, settlesP]
  · simp only [Bool.not_eq_true] at hfi
    simp only [hfi, Bool.false_eq_true, if_false]
    rw [fireError_single st i p reason hL hE]
    refine ⟨by rw [length_setImg], fun j hj => getImg_setImg_ne _ j i _ hj, ?_, ?_⟩
    · rw [getImg_setImg_self _ i _ hi]
      show (getImg st i).loadedClass = false
      rw [hl]
    · simp [settledIn, settlesP]

theorem fireAllAux_spec (f : Nat → Bool) (reason : String) :
    ∀ (sel pids : List Nat) (st : GState), sel.Nodup →
    List.Forall₂ (fun i p => i < st.imgs.length ∧ (getImg st i).loadedClass = false ∧
      (getImg st i).loadLs = [p] ∧ (getImg st i).errLs = [p]) sel pids →
    (fireAllAux f reason sel st).1.imgs.length = st.imgs.length ∧
    (∀ j, j ∉ sel → getImg (fireAllAux f reason sel st).1 j = getImg st j) ∧
    List.Forall₂ (fun i p =>
      (getImg (fireAllAux f reason sel st).1 i).loadedClass = f i ∧
      settledIn (fireAllAux f reason sel st).2 p = true) sel pids
  | [], pids, st, _, hF => by
    cases hF
    exact ⟨rfl, fun _ _ => rfl, List.Forall₂.nil⟩
  | i :: rest, _, st, hnd, List.Forall₂.cons hip hrest0 => by
    obtain ⟨hi, hl, hL, hE⟩ := hip
    have hinr : i ∉ rest := (List.nodup_cons.mp hnd).1
    have hone := fire_one f reason st i _ hi hl hL hE
    have hrest := fireAllAux_spec f reason rest _
      (if f i then fireLoad st i else fireError st i reason).1
      (List.nodup_cons.mp hnd).2
      (forall₂_imp_mem
        (fun j q hj hr => by
          have hne : j ≠ i := fun hh => hinr (hh ▸ hj)
          exact ⟨by rw [hone.1]; exact hr.1,
                 by rw [hone.2.1 j hne]; exact hr.2.1,
                 by rw [hone.2.1 j hne]; exact hr.2.2.1,
                 by rw [hone.2.1 j hne]; exact hr.2.2.2⟩)
        hrest0)
    have hunf : fireAllAux f reason (i :: rest) st =
        ((fireAllAux f reason rest
            (if f i then fireLoad st i else fireError st i reason).1).1,
         (if f i then fireLoad st i else fireError st i reason).2 ++
           (fireAllAux f reason rest
             (if f i then fireLoad st i else fireError st i reason).1).2) := rfl
    rw [hunf]
    refine ⟨by rw [hrest.1, hone.1], ?_, ?_⟩
    · intro j hj
      have hjr : j ∉ rest := fun hh => hj (List.mem_cons_of_mem _ hh)
      have hji : j ≠ i := fun hh => hj (hh ▸ List.mem_cons_self _ _)
      show getImg (fireAllAux f reason rest _).1 j = getImg st j
      rw [hrest.2.1 j hjr, hone.2.1 j hji]
    · refine List.Forall₂.cons ?_ ?_
      · constructor
        · show (getImg (fireAllAux f reason rest _).1 i).loadedClass = f i
          rw [hrest.2.1 i hinr]
          exact hone.2.2.1
        · rw [settledIn_append, hone.2.2.2]
          rfl
      · exact List.Forall₂.imp
          (fun a b h => ⟨h.1, by rw [settledIn_append, h.2, Bool.or_true]⟩)
          hrest.2.2

/-- C7: `loadAll` selects exactly the managed elements currently not
    Loaded and invokes `load` on each; once the browser has settled
    every one of them (success for the elements `f` marks, failure for
    the rest), every promise `loadAll` produced has settled — so
    `Promise.allSettled`, and with it `loadAll`, completes even when
    some elements fail — exactly the successfully-signalled selected
    elements end Loaded, unselected elements are untouched, and with N
    selected and M failing, N−M end Loaded (the success and failure
    counts partition N). -/
theorem loadAll_settles (st : GState) (f : Nat → Bool) (reason : String)
    (hfresh : ∀ i, i < st.imgs.length →
      (getImg st i).loadLs = [] ∧ (getImg st i).errLs = []) :
    (∀ i, i ∈ loadAllSelect st ↔ i < st.imgs.length ∧ (getImg st i).loadedClass = false) ∧
    (∀ p ∈ (loadAll st).2.1,
      settledIn (fireAllAux f reason (loadAllSelect st) (loadAll st).1).2 p = true) ∧
    (∀ i ∈ loadAllSelect st,
      (getImg (fireAllAux f reason (loadAllSelect st) (loadAll st).1).1 i).loadedClass = f i) ∧
    (∀ j, j ∉ loadAllSelect st →
      getImg (fireAllAux f reason (loadAllSelect st) (loadAll st).1).1 j = getImg st j) ∧
    ((loadAllSelect st).filter
        (fun i =>
          (getImg (fireAllAux f reason (loadAllSelect st) (loadAll st).1).1 i).loadedClass)
      = (loadAllSelect st).filter f) ∧
    (((loadAllSelect st).filter f).length
       + ((loadAllSelect st).filter (fun i => !f i)).length = (loadAllSelect st).length) := by
  have hmem : ∀ i, i ∈ loadAllSelect st ↔
      i < st.imgs.length ∧ (getImg st i).loadedClass = false := by
    intro i
    simp [loadAllSelect, List.mem_filter, List.mem_range]
  have hnd : (loadAllSelect st).Nodup := (List.nodup_range _).filter _
  have hP1 := loadAllAux_spec (loadAllSelect st) st hnd
    (fun i hi => by
      obtain ⟨h1, h2⟩ := (hmem i).mp hi
      exact ⟨h1, h2, (hfresh i h1).1, (hfresh i h1).2⟩)
  have hP2 := fireAllAux_spec f reason (loadAllSelect st) (loadAll st).2.1 (loadAll st).1 hnd
    (List.Forall₂.imp
      (fun a b h =>
        ⟨by
          show a < (loadAllAux (loadAllSelect st) st).1.imgs.length
          rw [hP1.1]
          exact h.1,
         h.2.1, h.2.2.1, h.2.2.2⟩)
      hP1.2.2)
  refine ⟨hmem, ?_, ?_, ?_, ?_, filter_length_split f _⟩
  · intro p hp
    obtain ⟨a, _, hab⟩ := forall₂_mem_right hP2.2.2 p hp
    exact hab.2
  · intro i hi
    obtain ⟨b, _, hab⟩ := forall₂_mem_left hP2.2.2 i hi
    exact hab.1
  · intro j hj
    rw [hP2.2.1 j hj]
    exact hP1.2.1 j hj
  · apply List.filter_congr
    intro i hi
    obtain ⟨b, _, hab⟩ := forall₂_mem_left hP2.2.2 i hi
    rw [hab.1]

/-- C7 witness. -/
theorem loadAll_settles_witness :
    (∀ i, i < stB.imgs.length →
      (getImg stB i).loadLs = [] ∧ (getImg stB i).errLs = []) ∧
    loadAllSelect stB = [1, 2] ∧
    ((loadAllSelect stB).filter
        (fun i =>
          (getImg (fireAllAux (fun i => i == 1) "boom" (loadAllSelect stB)
            (loadAll stB).1).1 i).loadedClass)
      = (loadAllSelect stB).filter (fun i => i == 1)) :=
  ⟨by decide, by decide,
   (loadAll_settles stB (fun i => i == 1) "boom" (by decide)).2.2.2.2.1⟩
